import Mathlib

/-!
Shallow embedding of the WebWizard movie-catalog application (src/app.py).

The persistent store (SQLite via SQLAlchemy in the source) is modelled as a
record of row lists with explicit autoincrement counters.  Each Flask route
handler becomes a pure function from a store (and, where the handler is
guarded by login, a session holding the authenticated user id) to a result
value paired with the successor store.  Flash messages and redirects are
abstracted into result constructors; the error constructors record which
user-visible outcome the handler produced.
-/

namespace WebWizard

/-- Row of the user table (model class User, app.py lines 29-46). -/
structure User where
  id : Nat
  username : String
  email : String
  passwordHash : String
deriving Repr, DecidableEq

/-- Row of the movie table (model class Movie, app.py lines 49-63). -/
structure Movie where
  id : Nat
  title : String
  synopsis : String
  poster : String
  year : Int
  genre : String
  duration : String
deriving Repr, DecidableEq

/-- Row of the watchlist table (model class WatchlistItem, app.py lines 65-71). -/
structure WatchlistItem where
  id : Nat
  userId : Nat
  movieId : Nat
deriving Repr, DecidableEq

/-- Row of the review table (model class Review, app.py lines 73-82).
The timestamp is modelled as a Nat tick supplied by the caller in place of
the current wall-clock time used by the database default. -/
structure Review where
  id : Nat
  text : String
  rating : Int
  timestamp : Nat
  userId : Nat
  movieId : Nat
deriving Repr, DecidableEq

/-- The whole persistent store: the four tables plus the autoincrement
counters that produce fresh primary keys on insert. -/
structure Store where
  users : List User
  movies : List Movie
  watchlist : List WatchlistItem
  reviews : List Review
  nextUserId : Nat
  nextMovieId : Nat
  nextWatchlistId : Nat
  nextReviewId : Nat
deriving Repr, DecidableEq

/-- A freshly initialised database, before any row is inserted. -/
def emptyStore : Store :=
  { users := [], movies := [], watchlist := [], reviews := []
    nextUserId := 1, nextMovieId := 1, nextWatchlistId := 1, nextReviewId := 1 }

/-! ### Row predicates shared by queries -/

/-- filter_by for a review on a (user, movie) pair. -/
def pairP (uid mid : Nat) (r : Review) : Bool :=
  r.userId == uid && r.movieId == mid

/-- filter_by for a watchlist item on a (user, movie) pair. -/
def wpairP (uid mid : Nat) (w : WatchlistItem) : Bool :=
  w.userId == uid && w.movieId == mid

/-- Primary-key lookup predicate for movies (db.session.get on Movie). -/
def movieIdP (mid : Nat) (m : Movie) : Bool :=
  m.id == mid

/-- Primary-key lookup predicate for users (db.session.get on User). -/
def userIdP (uid : Nat) (u : User) : Bool :=
  u.id == uid

/-! ### CPython int() applied to a string

Models the aspects of the builtin exercised by the handlers: surrounding
whitespace is stripped, an optional single sign is allowed, and the rest
must be one or more ASCII decimal digits; anything else raises ValueError,
modelled as `none`.  (Digit-grouping underscores and non-ASCII digits are
accepted by CPython but never reach these handlers through form data that
the claims mention, and are omitted.) -/

/-- Surrounding-whitespace stripping performed by int() on its string
argument. -/
def pyStrip (cs : List Char) : List Char :=
  ((cs.dropWhile Char.isWhitespace).reverse.dropWhile Char.isWhitespace).reverse

/-- Parse a nonempty all-digit character list to its value. -/
def parseDigits (cs : List Char) : Option Nat :=
  if cs.isEmpty then none
  else if cs.all Char.isDigit then
    some (cs.foldl (fun acc c => acc * 10 + (c.toNat - Char.toNat (Char.ofNat 48))) 0)
  else none

/-- int(str) in CPython, returning none where CPython raises ValueError. -/
def pyInt (str : String) : Option Int :=
  match pyStrip str.toList with
  | [] => none
  | c :: rest =>
    if c == Char.ofNat 43 then (parseDigits rest).map (fun n => (n : Int))
    else if c == Char.ofNat 45 then (parseDigits rest).map (fun n => -(n : Int))
    else (parseDigits (c :: rest)).map (fun n => (n : Int))

/-- An uncaught Python exception escaping a route handler. -/
inductive PyExn
  | valueError
deriving Repr, DecidableEq

/-! ### Catalog query service -/

/-- Case-insensitive substring match used by title search (Movie.title.ilike). -/
def titleContainsCI (title q : String) : Bool :=
  decide (List.IsInfix (String.toList (String.toLower q)) (String.toList (String.toLower title)))

/-- ORDER BY Movie.year DESC as produced by the store for a given snapshot:
a stable sort placing larger years first. -/
def sortByYearDesc (l : List Movie) : List Movie :=
  l.insertionSort (fun a b => b.year ≤ a.year)

/-- Core of api_movies (app.py lines 102-125) after the page parameter has
been parsed: apply the title and genre filters when nonempty, order by year
descending, and slice the page of size 12 at offset (page - 1) * 12. -/
def api_movies_page (s : Store) (q genre : String) (page : Int) : List Movie :=
  let query := s.movies
  let query := if q ≠ "" then query.filter (fun m => titleContainsCI m.title q) else query
  let query := if genre ≠ "" then query.filter (fun m => m.genre == genre) else query
  ((sortByYearDesc query).drop (((page - 1) * 12).toNat)).take 12

/-- Route handler api_movies (app.py lines 102-125).  The q and genre
parameters default to the empty string when absent; the page parameter
defaults to the string form of 1 and is fed to int() with no surrounding
try, so a non-numeric page raises an uncaught ValueError. -/
def api_movies (s : Store) (q genre page : Option String) :
    Except PyExn (List Movie) :=
  let qs := q.getD ""
  let gs := genre.getD ""
  match pyInt (page.getD "1") with
  | none => Except.error PyExn.valueError
  | some p => Except.ok (api_movies_page s qs gs p)

/-- ORDER BY Review.timestamp DESC for a given snapshot: a stable sort
placing larger timestamps first. -/
def sortByTimestampDesc (l : List Review) : List Review :=
  l.insertionSort (fun a b => b.timestamp ≤ a.timestamp)

/-- All reviews stored for a movie (filter_by movie_id). -/
def movieReviews (s : Store) (mid : Nat) : List Review :=
  s.reviews.filter (fun r => r.movieId == mid)

/-- Average of a nonempty review list as an exact rational. -/
def ratingAvg (rs : List Review) : ℚ :=
  ((rs.map (fun r => r.rating)).sum : Int) / (rs.length : ℚ)

/-- round(x, 0) with round-half-to-even tie-breaking as in Python. -/
def pyRound0 (q : ℚ) : Int :=
  let f := Rat.floor q
  let frac := q - f
  if frac < 1 / 2 then f
  else if 1 / 2 < frac then f + 1
  else if f % 2 = 0 then f else f + 1

/-- round(x, 1): round to one decimal place. -/
def round1 (q : ℚ) : ℚ :=
  (pyRound0 (10 * q) : ℚ) / 10

/-- The average-rating field of the detail page: the string sentinel is the
na constructor.  Mirrors avg_rating = round(avg_rating, 1) if avg_rating
else the N/A string (app.py line 138); Python truthiness maps both a NULL
aggregate (no reviews) and an aggregate equal to zero to the sentinel. -/
inductive AvgRating
  | na
  | avg (q : ℚ)
deriving Repr, DecidableEq

/-- Data rendered by the movie detail page. -/
structure MovieDetail where
  movie : Movie
  avgRating : AvgRating
  reviews : List Review
  isOnWatchlist : Bool
deriving Repr, DecidableEq

/-- Membership check used by the detail page (app.py line 146) and by the
toggle handler: whether a watchlist row exists for the pair. -/
def onWatchlist (s : Store) (uid mid : Nat) : Bool :=
  (s.watchlist.find? (wpairP uid mid)).isSome

/-- Route handler movie_detail (app.py lines 128-154).  Returns none where
the handler flashes Movie not found and redirects to the index. -/
def movie_detail (s : Store) (session : Option Nat) (mid : Nat) :
    Option MovieDetail :=
  match s.movies.find? (movieIdP mid) with
  | none => none
  | some movie =>
    let rs := movieReviews s mid
    let avgOpt : Option ℚ := if rs.isEmpty then none else some (ratingAvg rs)
    let avgRating :=
      match avgOpt with
      | none => AvgRating.na
      | some a => if a = 0 then AvgRating.na else AvgRating.avg (round1 a)
    let isOnW :=
      match session with
      | none => false
      | some uid => onWatchlist s uid mid
    some ⟨movie, avgRating, sortByTimestampDesc rs, isOnW⟩

/-! ### Watchlist service -/

/-- Outcome of the toggle handler, as flashed to the user. -/
inductive ToggleResult
  | movieNotFound
  | removed
  | added
deriving Repr, DecidableEq

/-- db.session.delete of a row: remove the row carrying the primary key. -/
def deleteItem (l : List WatchlistItem) (itemId : Nat) : List WatchlistItem :=
  l.filter (fun w => !(w.id == itemId))

/-- Route handler toggle_watchlist (app.py lines 157-185) for the
authenticated user uid: delete the pair row when present, insert a fresh
one otherwise. -/
def toggle_watchlist (s : Store) (uid mid : Nat) : ToggleResult × Store :=
  match s.movies.find? (movieIdP mid) with
  | none => (ToggleResult.movieNotFound, s)
  | some _ =>
    match s.watchlist.find? (wpairP uid mid) with
    | some item =>
      (ToggleResult.removed, { s with watchlist := deleteItem s.watchlist item.id })
    | none =>
      (ToggleResult.added,
        { s with
          watchlist := s.watchlist ++ [⟨s.nextWatchlistId, uid, mid⟩]
          nextWatchlistId := s.nextWatchlistId + 1 })

/-! ### Review service -/

/-- Outcome of the review handler, as flashed to the user. -/
inductive SubmitResult
  | movieNotFound
  | missingField
  | invalidRating
  | ratingOutOfRange
  | updated
  | created
deriving Repr, DecidableEq

/-- Python truthiness of an optional form field: absent and empty string
are falsy. -/
def fieldTruthy : Option String → Bool
  | none => false
  | some t => !t.isEmpty

/-- Overwrite of the matched row inside submit_review: rating, text and
timestamp are replaced, everything else is kept. -/
def reviewUpd (x : Review) (rating : Int) (text : String) (now : Nat) : Review :=
  { x with rating := rating, text := text, timestamp := now }

/-- The ORM update path: the first row matching the pair (the one returned
by first()) is overwritten in place. -/
def updateFirstReview :
    List Review → Nat → Nat → Int → String → Nat → List Review
  | [], _, _, _, _, _ => []
  | x :: xs, uid, mid, rating, text, now =>
    if pairP uid mid x then reviewUpd x rating text now :: xs
    else x :: updateFirstReview xs uid mid rating text now

/-- Route handler submit_review (app.py lines 201-252) for the
authenticated user uid; now stands for the commit timestamp. -/
def submit_review (s : Store) (uid mid : Nat)
    (ratingField textField : Option String) (now : Nat) :
    SubmitResult × Store :=
  match s.movies.find? (movieIdP mid) with
  | none => (SubmitResult.movieNotFound, s)
  | some _ =>
    if !fieldTruthy ratingField || !fieldTruthy textField then
      (SubmitResult.missingField, s)
    else
      let text := textField.getD ""
      match pyInt (ratingField.getD "") with
      | none => (SubmitResult.invalidRating, s)
      | some rating =>
        if 1 ≤ rating ∧ rating ≤ 5 then
          if (s.reviews.find? (pairP uid mid)).isSome then
            (SubmitResult.updated,
              { s with reviews := updateFirstReview s.reviews uid mid rating text now })
          else
            (SubmitResult.created,
              { s with
                reviews := s.reviews ++ [⟨s.nextReviewId, text, rating, now, uid, mid⟩]
                nextReviewId := s.nextReviewId + 1 })
        else (SubmitResult.ratingOutOfRange, s)

/-! ### Auth service -/

/-- Password hashing is delegated to a library primitive; the embedding
keeps it abstract but injective on its input. -/
def generate_password_hash (password : String) : String :=
  String.append "pbkdf2:" password

/-- Outcome of the register handler. -/
inductive RegisterResult
  | alreadyAuthenticated
  | conflict
  | created (uid : Nat)
deriving Repr, DecidableEq

/-- Route handler register, POST branch (app.py lines 279-307).  The
session is the current authenticated user id, when any; an authenticated
caller is redirected away without reaching the form logic.  The only check
before insertion is the uniqueness query on username OR email. -/
def register (s : Store) (session : Option Nat)
    (username email password : String) : RegisterResult × Store :=
  match session with
  | some _ => (RegisterResult.alreadyAuthenticated, s)
  | none =>
    if (s.users.find? (fun u => u.username == username || u.email == email)).isSome then
      (RegisterResult.conflict, s)
    else
      (RegisterResult.created s.nextUserId,
        { s with
          users := s.users ++
            [⟨s.nextUserId, username, email, generate_password_hash password⟩]
          nextUserId := s.nextUserId + 1 })

/-- Outcome of the logout handler. -/
inductive LogoutResult
  | authRequired
  | loggedOut
deriving Repr, DecidableEq

/-- Route handler logout (app.py lines 310-316).  The route carries the
login_required guard: an unauthenticated call is intercepted by the guard
and redirected to the login view with an error-category flash; only an
authenticated call reaches logout_user.  The second component is the
session after the call. -/
def logout (session : Option Nat) : LogoutResult × Option Nat :=
  match session with
  | none => (LogoutResult.authRequired, none)
  | some _ => (LogoutResult.loggedOut, none)

/-! ### Admin mutation service -/

/-- Outcome of the add-movie handler. -/
inductive AddMovieResult
  | authRequired
  | authorizationError
  | yearValueError
  | added (mid : Nat)
deriving Repr, DecidableEq

/-- Route handler add_movie, POST branch (app.py lines 319-351).  The
caller is resolved from the session through the user loader; the guard
admits only the user named admin.  int() on the year field is wrapped in a
try whose ValueError branch leaves the store unchanged. -/
def add_movie (s : Store) (session : Option Nat)
    (title genre poster yearStr duration synopsis : String) :
    AddMovieResult × Store :=
  match session.bind (fun uid => s.users.find? (userIdP uid)) with
  | none => (AddMovieResult.authRequired, s)
  | some u =>
    if u.username ≠ "admin" then (AddMovieResult.authorizationError, s)
    else
      match pyInt yearStr with
      | none => (AddMovieResult.yearValueError, s)
      | some y =>
        (AddMovieResult.added s.nextMovieId,
          { s with
            movies := s.movies ++ [⟨s.nextMovieId, title, synopsis, poster, y, genre, duration⟩]
            nextMovieId := s.nextMovieId + 1 })

/-- Outcome of the edit-movie handler. -/
inductive EditMovieResult
  | authRequired
  | authorizationError
  | movieNotFound
  | yearValueError
  | updated
deriving Repr, DecidableEq

/-- Route handler edit_movie, POST branch (app.py lines 354-388).  Same
guard as add_movie; a ValueError from int() on year triggers a session
rollback, so the store is unchanged on that path. -/
def edit_movie (s : Store) (session : Option Nat) (mid : Nat)
    (title genre poster yearStr duration synopsis : String) :
    EditMovieResult × Store :=
  match session.bind (fun uid => s.users.find? (userIdP uid)) with
  | none => (EditMovieResult.authRequired, s)
  | some u =>
    if u.username ≠ "admin" then (EditMovieResult.authorizationError, s)
    else
      match s.movies.find? (movieIdP mid) with
      | none => (EditMovieResult.movieNotFound, s)
      | some _ =>
        match pyInt yearStr with
        | none => (EditMovieResult.yearValueError, s)
        | some y =>
          (EditMovieResult.updated,
            { s with
              movies := s.movies.map (fun m =>
                if movieIdP mid m then
                  { m with title := title, genre := genre, poster := poster,
                           year := y, duration := duration, synopsis := synopsis }
                else m) })

/-! ### The operation alphabet, for store invariants -/

/-- One invocation of a store-touching route handler.  Handlers guarded by
login_required carry the session; an absent or dangling session makes the
guard bounce the request without touching the store. -/
inductive Op
  | submitReviewOp (session : Option Nat) (movieId : Nat)
      (ratingField textField : Option String) (now : Nat)
  | toggleWatchlistOp (session : Option Nat) (movieId : Nat)
  | registerOp (session : Option Nat) (username email password : String)
  | loginOp (identity password : String)
  | logoutOp (session : Option Nat)
  | addMovieOp (session : Option Nat)
      (title genre poster yearStr duration synopsis : String)
  | editMovieOp (session : Option Nat) (movieId : Nat)
      (title genre poster yearStr duration synopsis : String)

/-- Resolve a session to an authenticated user id: the user loader must
find the row, otherwise the request is treated as anonymous. -/
def sessionUser (s : Store) (session : Option Nat) : Option Nat :=
  (session.bind (fun uid => s.users.find? (userIdP uid))).map (fun u => u.id)

/-- Effect of one handler invocation on the store.  login only reads the
store; the read-only catalog handlers are omitted since they have no
effect. -/
def applyOp (s : Store) : Op → Store
  | Op.submitReviewOp session mid rt tx now =>
    match sessionUser s session with
    | none => s
    | some uid => (submit_review s uid mid rt tx now).2
  | Op.toggleWatchlistOp session mid =>
    match sessionUser s session with
    | none => s
    | some uid => (toggle_watchlist s uid mid).2
  | Op.registerOp session un em pw => (register s session un em pw).2
  | Op.loginOp _ _ => s
  | Op.logoutOp _ => s
  | Op.addMovieOp session t g p y d sy => (add_movie s session t g p y d sy).2
  | Op.editMovieOp session mid t g p y d sy => (edit_movie s session mid t g p y d sy).2

/-- A sequence of handler invocations applied in order. -/
def applyOps (s : Store) (ops : List Op) : Store :=
  ops.foldl applyOp s

/-- The review-table invariant: every stored review has an integer rating
in the range one to five and nonempty text. -/
def reviewsOK (s : Store) : Prop :=
  ∀ r ∈ s.reviews, 1 ≤ r.rating ∧ r.rating ≤ 5 ∧ r.text ≠ ""

instance (s : Store) : Decidable (reviewsOK s) := by
  unfold reviewsOK; infer_instance

/-! ### Small concrete stores used to instantiate the theorems -/

/-- A non-admin user row. -/
def alice : User := ⟨1, "alice", "alice at example", "h1"⟩

/-- A store holding just the user alice. -/
def storeU : Store :=
  { emptyStore with users := [alice], nextUserId := 2 }

/-- A sample movie row. -/
def movie1 : Movie := ⟨1, "Dune Part One", "spice", "p", 2021, "Sci-Fi", "2h 35m"⟩

/-- A store holding alice and one movie. -/
def storeM : Store :=
  { storeU with movies := [movie1], nextMovieId := 2 }

/-- A rating-five review by alice on the movie. -/
def review5 : Review := ⟨1, "stunning", 5, 10, 1, 1⟩

/-- A store holding alice, one movie and her rating-five review. -/
def storeMR : Store :=
  { storeM with reviews := [review5], nextReviewId := 2 }

/-! ## Theorems about the handlers -/

/-! ### Generic query lemmas -/

/-- first() returns the head of the filtered rows. -/
theorem find?_eq_head_filter {α : Type} (p : α → Bool) (l : List α) :
    l.find? p = (l.filter p).head? := by
  induction l with
  | nil => rfl
  | cons x xs ih =>
    by_cases h : p x
    · rw [List.find?_cons_of_pos _ h, List.filter_cons_of_pos h, List.head?_cons]
    · rw [List.find?_cons_of_neg _ h, List.filter_cons_of_neg h, ih]

/-- A list of length at most one whose head is x is exactly the singleton
of x. -/
theorem eq_singleton_of_len_le_one {α : Type} {l : List α} {x : α}
    (hlen : l.length ≤ 1) (hhd : l.head? = some x) : l = [x] := by
  cases l with
  | nil => simp at hhd
  | cons a as =>
    cases as with
    | nil => simp at hhd; simp [hhd]
    | cons b bs => simp at hlen

/-- Membership via find? is membership via the filtered rows. -/
theorem onWatchlist_eq_filter (s : Store) (uid mid : Nat) :
    onWatchlist s uid mid = !(s.watchlist.filter (wpairP uid mid)).isEmpty := by
  rw [onWatchlist, find?_eq_head_filter]
  cases s.watchlist.filter (wpairP uid mid) <;> simp

/-- Deleting the one pair row by primary key leaves no pair row. -/
theorem filter_wpair_delete (l : List WatchlistItem) (uid mid : Nat)
    (item : WatchlistItem) (hf : l.filter (wpairP uid mid) = [item]) :
    (deleteItem l item.id).filter (wpairP uid mid) = [] := by
  rw [List.filter_eq_nil_iff]
  intro a ha hpa
  unfold deleteItem at ha
  obtain ⟨hmem, hid⟩ := List.mem_filter.mp ha
  have hx : a ∈ l.filter (wpairP uid mid) := List.mem_filter.mpr ⟨hmem, hpa⟩
  rw [hf] at hx
  have hax : a = item := by simpa using hx
  subst hax
  simp at hid

/-- C10: a movie-search request whose page parameter is a non-numeric
string makes the handler raise an uncaught ValueError from int() instead
of returning a result page or a structured error, whatever the store
holds. -/
theorem api_movies_nonnumeric_page_raises (s : Store) :
    api_movies s none none (some "abc") = Except.error PyExn.valueError := rfl

/-- C7 counterexample: calling logout with no active session is not a
successful invocation of the handler body; the login_required guard
intercepts it, so the claim that it is a succeeding no-op fails. -/
theorem logout_no_session_not_success :
    (logout none).1 = LogoutResult.authRequired ∧
    LogoutResult.authRequired ≠ LogoutResult.loggedOut := by
  exact ⟨rfl, by decide⟩

/-- C7 amended: logout is behind the login_required guard, so calling it
without an active session is rejected by the guard with an error-category
redirect to the login view rather than succeeding as a no-op; with an
active session it invalidates that session. -/
theorem logout_guard_behavior :
    (logout none).1 = LogoutResult.authRequired ∧
    ∀ uid : Nat, logout (some uid) = (LogoutResult.loggedOut, none) := by
  exact ⟨rfl, fun _ => rfl⟩

/-- C8 counterexample: registering with empty username, empty email and
empty password on a fresh store is accepted and creates a user row, so the
handler performs no defensive re-validation of its inputs. -/
theorem register_empty_fields_creates_row :
    (register emptyStore none "" "" "").1 = RegisterResult.created 1 ∧
    (register emptyStore none "" "" "").2.users.length = 1 := by
  exact ⟨rfl, rfl⟩

/-- C8 amended: register re-checks nothing about the shape of its inputs;
whenever the uniqueness query on username OR email finds no existing row,
even an invocation with empty username, empty email and empty password
(hence a syntactically invalid email) succeeds and appends a user row. -/
theorem register_no_defensive_recheck (s : Store)
    (h : (s.users.find? (fun u => u.username == "" || u.email == "")).isSome = false) :
    (register s none "" "" "").1 = RegisterResult.created s.nextUserId ∧
    (register s none "" "" "").2.users.length = s.users.length + 1 := by
  unfold register
  simp [h]

/-- Witness for the C8 amended theorem at the fresh store. -/
theorem register_no_defensive_recheck_witness :
    ((emptyStore.users.find? (fun u => u.username == "" || u.email == "")).isSome = false) ∧
    ((register emptyStore none "" "" "").1 = RegisterResult.created emptyStore.nextUserId ∧
     (register emptyStore none "" "" "").2.users.length = emptyStore.users.length + 1) :=
  ⟨by decide, register_no_defensive_recheck emptyStore (by decide)⟩

/-- C4: when some user row already carries an email, registering any
account reusing that email hits the uniqueness query and fails with the
conflict outcome, leaving the store (in particular the user table)
unchanged; symmetrically for reusing the username. -/
theorem register_reuse_conflict (s : Store) (u : User) (hu : u ∈ s.users)
    (un em pw1 pw2 : String) :
    register s none un u.email pw1 = (RegisterResult.conflict, s) ∧
    register s none u.username em pw2 = (RegisterResult.conflict, s) := by
  constructor
  · unfold register
    have h : (s.users.find? (fun x => x.username == un || x.email == u.email)).isSome := by
      exact List.find?_isSome.mpr ⟨u, hu, by simp⟩
    simp [h]
  · unfold register
    have h : (s.users.find? (fun x => x.username == u.username || x.email == em)).isSome := by
      exact List.find?_isSome.mpr ⟨u, hu, by simp⟩
    simp [h]

/-- Witness for C4 at a concrete one-user store. -/
theorem register_reuse_conflict_witness :
    alice ∈ storeU.users ∧
    (register storeU none "bob" alice.email "pw" = (RegisterResult.conflict, storeU) ∧
     register storeU none alice.username "bob at example" "pw" = (RegisterResult.conflict, storeU)) :=
  ⟨by decide, register_reuse_conflict storeU alice (by decide) "bob" "bob at example" "pw" "pw"⟩

/-- C6: an authenticated caller whose username is not admin gets the
authorization error from add_movie and the store — in particular the movie
table — is unchanged. -/
theorem add_movie_nonadmin_rejected (s : Store) (uid : Nat) (u : User)
    (hu : s.users.find? (userIdP uid) = some u) (hname : u.username ≠ "admin")
    (t g p y d sy : String) :
    add_movie s (some uid) t g p y d sy = (AddMovieResult.authorizationError, s) ∧
    (add_movie s (some uid) t g p y d sy).2.movies = s.movies := by
  have h : add_movie s (some uid) t g p y d sy = (AddMovieResult.authorizationError, s) := by
    unfold add_movie
    simp [hu, hname]
  exact ⟨h, by rw [h]⟩

/-- Witness for C6: alice, who is not admin, is rejected on a concrete
store. -/
theorem add_movie_nonadmin_rejected_witness :
    storeU.users.find? (userIdP 1) = some alice ∧ alice.username ≠ "admin" ∧
    (add_movie storeU (some 1) "T" "G" "P" "1999" "2h" "S"
        = (AddMovieResult.authorizationError, storeU) ∧
      (add_movie storeU (some 1) "T" "G" "P" "1999" "2h" "S").2.movies = storeU.movies) :=
  ⟨by decide, by decide,
    add_movie_nonadmin_rejected storeU 1 alice (by decide) (by decide) "T" "G" "P" "1999" "2h" "S"⟩

/-! ### Watchlist toggling -/

/-- Single toggle, removal branch. -/
theorem toggle_eq_removed (s : Store) (uid mid : Nat) (m : Movie)
    (item : WatchlistItem) (hm : s.movies.find? (movieIdP mid) = some m)
    (h : s.watchlist.find? (wpairP uid mid) = some item) :
    toggle_watchlist s uid mid =
      (ToggleResult.removed, { s with watchlist := deleteItem s.watchlist item.id }) := by
  simp [toggle_watchlist, hm, h]

/-- Single toggle, insertion branch. -/
theorem toggle_eq_added (s : Store) (uid mid : Nat) (m : Movie)
    (hm : s.movies.find? (movieIdP mid) = some m)
    (h : s.watchlist.find? (wpairP uid mid) = none) :
    toggle_watchlist s uid mid =
      (ToggleResult.added,
        { s with
          watchlist := s.watchlist ++ [⟨s.nextWatchlistId, uid, mid⟩]
          nextWatchlistId := s.nextWatchlistId + 1 }) := by
  simp [toggle_watchlist, hm, h]

/-- C2: toggling the watchlist twice for the same (user, movie) pair — on
a store whose uniqueness constraint holds for that pair — returns the
membership state to its original value, with the first call reporting
removed when the entry was present and added otherwise, and the second
call reporting the opposite. -/
theorem toggle_watchlist_twice (s : Store) (uid mid : Nat) (m : Movie)
    (hm : s.movies.find? (movieIdP mid) = some m)
    (hu : (s.watchlist.filter (wpairP uid mid)).length ≤ 1) :
    onWatchlist (toggle_watchlist (toggle_watchlist s uid mid).2 uid mid).2 uid mid
      = onWatchlist s uid mid ∧
    (toggle_watchlist s uid mid).1
      = (if onWatchlist s uid mid then ToggleResult.removed else ToggleResult.added) ∧
    (toggle_watchlist (toggle_watchlist s uid mid).2 uid mid).1
      = (if onWatchlist s uid mid then ToggleResult.added else ToggleResult.removed) := by
  cases h : s.watchlist.find? (wpairP uid mid) with
  | some item =>
    have hmember : onWatchlist s uid mid = true := by
      rw [onWatchlist, h]; rfl
    have hfilter : s.watchlist.filter (wpairP uid mid) = [item] := by
      refine eq_singleton_of_len_le_one hu ?_
      rw [← find?_eq_head_filter, h]
    have h1 := toggle_eq_removed s uid mid m item hm h
    rw [h1]
    have hf1 : (deleteItem s.watchlist item.id).filter (wpairP uid mid) = [] :=
      filter_wpair_delete s.watchlist uid mid item hfilter
    have h2find : (deleteItem s.watchlist item.id).find? (wpairP uid mid) = none := by
      rw [find?_eq_head_filter, hf1]; rfl
    have h2 := toggle_eq_added { s with watchlist := deleteItem s.watchlist item.id }
      uid mid m hm h2find
    rw [h2]
    refine ⟨?_, by simp [hmember], by simp [hmember]⟩
    rw [onWatchlist_eq_filter, hmember]
    simp [hf1, wpairP]
  | none =>
    have hmember : onWatchlist s uid mid = false := by
      rw [onWatchlist, h]; rfl
    have hfilter : s.watchlist.filter (wpairP uid mid) = [] := by
      have := find?_eq_head_filter (wpairP uid mid) s.watchlist
      rw [h] at this
      exact List.head?_eq_none_iff.mp this.symm
    have h1 := toggle_eq_added s uid mid m hm h
    rw [h1]
    have hf1 : (s.watchlist ++ [(⟨s.nextWatchlistId, uid, mid⟩ : WatchlistItem)]).filter
        (wpairP uid mid) = [⟨s.nextWatchlistId, uid, mid⟩] := by
      rw [List.filter_append, hfilter]
      simp [wpairP]
    have h2find : (s.watchlist ++ [(⟨s.nextWatchlistId, uid, mid⟩ : WatchlistItem)]).find?
        (wpairP uid mid) = some ⟨s.nextWatchlistId, uid, mid⟩ := by
      rw [find?_eq_head_filter, hf1]; rfl
    have h2 := toggle_eq_removed
      { s with
        watchlist := s.watchlist ++ [⟨s.nextWatchlistId, uid, mid⟩]
        nextWatchlistId := s.nextWatchlistId + 1 }
      uid mid m ⟨s.nextWatchlistId, uid, mid⟩ hm h2find
    rw [h2]
    refine ⟨?_, by simp [hmember], by simp [hmember]⟩
    rw [onWatchlist_eq_filter, hmember]
    have hdel := filter_wpair_delete
      (s.watchlist ++ [(⟨s.nextWatchlistId, uid, mid⟩ : WatchlistItem)]) uid mid
      ⟨s.nextWatchlistId, uid, mid⟩ hf1
    simp only [hdel]
    rfl

/-- Witness for C2 at a concrete store with one movie and an empty
watchlist. -/
theorem toggle_watchlist_twice_witness :
    storeM.movies.find? (movieIdP 1) = some movie1 ∧
    (storeM.watchlist.filter (wpairP 1 1)).length ≤ 1 ∧
    (onWatchlist (toggle_watchlist (toggle_watchlist storeM 1 1).2 1 1).2 1 1
        = onWatchlist storeM 1 1 ∧
      (toggle_watchlist storeM 1 1).1
        = (if onWatchlist storeM 1 1 then ToggleResult.removed else ToggleResult.added) ∧
      (toggle_watchlist (toggle_watchlist storeM 1 1).2 1 1).1
        = (if onWatchlist storeM 1 1 then ToggleResult.added else ToggleResult.removed)) :=
  ⟨by decide, by decide, toggle_watchlist_twice storeM 1 1 movie1 (by decide) (by decide)⟩

/-! ### Review submission -/

/-- The in-place overwrite keeps the (user, movie) pair of the row. -/
theorem pairP_reviewUpd (uid mid : Nat) (x : Review) (r : Int) (t : String) (n : Nat) :
    pairP uid mid (reviewUpd x r t n) = pairP uid mid x := rfl

/-- Under the uniqueness constraint, overwriting the first pair row
overwrites every pair row: the filtered rows are mapped through the
update. -/
theorem filter_updateFirstReview (uid mid : Nat) (rating : Int) (text : String)
    (now : Nat) (l : List Review)
    (hlen : (l.filter (pairP uid mid)).length ≤ 1) :
    (updateFirstReview l uid mid rating text now).filter (pairP uid mid)
      = (l.filter (pairP uid mid)).map (fun x => reviewUpd x rating text now) := by
  induction l with
  | nil => rfl
  | cons x xs ih =>
    by_cases hp : pairP uid mid x
    · have hpu : pairP uid mid (reviewUpd x rating text now) = true := hp
      have hxs : xs.filter (pairP uid mid) = [] := by
        rw [List.filter_cons_of_pos hp, List.length_cons] at hlen
        exact List.length_eq_zero.mp (by omega)
      simp only [updateFirstReview, hp, if_true]
      rw [List.filter_cons_of_pos hpu, List.filter_cons_of_pos hp, hxs]
      rfl
    · have hlen2 : (xs.filter (pairP uid mid)).length ≤ 1 := by
        rw [List.filter_cons_of_neg hp] at hlen
        exact hlen
      simp only [updateFirstReview, hp, if_false, Bool.false_eq_true]
      rw [List.filter_cons_of_neg hp, List.filter_cons_of_neg hp]
      exact ih hlen2

/-- One valid submission on a store satisfying the pair-uniqueness
constraint: afterwards the pair has exactly one row, carrying the
submitted rating, text and timestamp, and the movie table is untouched. -/
theorem submit_review_valid (s : Store) (uid mid : Nat) (m : Movie) (rt tx : String)
    (now : Nat) (r : Int)
    (hm : s.movies.find? (movieIdP mid) = some m)
    (hr : pyInt rt = some r) (hrt : rt ≠ "") (htx : tx ≠ "")
    (hrange : 1 ≤ r ∧ r ≤ 5)
    (hlen : (s.reviews.filter (pairP uid mid)).length ≤ 1) :
    ∃ row : Review,
      (submit_review s uid mid (some rt) (some tx) now).2.reviews.filter (pairP uid mid)
          = [row]
      ∧ row.rating = r ∧ row.text = tx ∧ row.timestamp = now
      ∧ (submit_review s uid mid (some rt) (some tx) now).2.movies = s.movies := by
  have hrtE : rt.isEmpty = false := by
    cases hE : rt.isEmpty
    · rfl
    · exact absurd ((String.isEmpty_iff rt).mp hE) hrt
  have htxE : tx.isEmpty = false := by
    cases hE : tx.isEmpty
    · rfl
    · exact absurd ((String.isEmpty_iff tx).mp hE) htx
  cases hfind : s.reviews.find? (pairP uid mid) with
  | some x =>
    have hfilter : s.reviews.filter (pairP uid mid) = [x] := by
      refine eq_singleton_of_len_le_one hlen ?_
      rw [← find?_eq_head_filter, hfind]
    have hstep : submit_review s uid mid (some rt) (some tx) now =
        (SubmitResult.updated,
          { s with reviews := updateFirstReview s.reviews uid mid r tx now }) := by
      simp [submit_review, hm, fieldTruthy, hrtE, htxE, hr, hrange, hfind]
    refine ⟨reviewUpd x r tx now, ?_, rfl, rfl, rfl, by rw [hstep]⟩
    rw [hstep]
    show (updateFirstReview s.reviews uid mid r tx now).filter (pairP uid mid) = _
    rw [filter_updateFirstReview uid mid r tx now s.reviews hlen, hfilter]
    rfl
  | none =>
    have hfilter : s.reviews.filter (pairP uid mid) = [] := by
      have := find?_eq_head_filter (pairP uid mid) s.reviews
      rw [hfind] at this
      exact List.head?_eq_none_iff.mp this.symm
    have hstep : submit_review s uid mid (some rt) (some tx) now =
        (SubmitResult.created,
          { s with
            reviews := s.reviews ++ [⟨s.nextReviewId, tx, r, now, uid, mid⟩]
            nextReviewId := s.nextReviewId + 1 }) := by
      simp [submit_review, hm, fieldTruthy, hrtE, htxE, hr, hrange, hfind]
    refine ⟨⟨s.nextReviewId, tx, r, now, uid, mid⟩, ?_, rfl, rfl, rfl, by rw [hstep]⟩
    rw [hstep]
    show (s.reviews ++ [(⟨s.nextReviewId, tx, r, now, uid, mid⟩ : Review)]).filter
        (pairP uid mid) = _
    rw [List.filter_append, hfilter]
    simp [pairP]

/-- C1: for a stored movie and a store satisfying the review
uniqueness constraint for the pair, two successive valid submissions by
the same user for the same movie leave exactly one review row for the
pair, and that row carries the second submission, namely its rating, text
and timestamp. -/
theorem submit_review_twice (s : Store) (uid mid : Nat) (m : Movie)
    (rt1 tx1 rt2 tx2 : String) (t1 t2 : Nat) (r1 r2 : Int)
    (hm : s.movies.find? (movieIdP mid) = some m)
    (hr1 : pyInt rt1 = some r1) (hrt1 : rt1 ≠ "") (htx1 : tx1 ≠ "")
    (hrange1 : 1 ≤ r1 ∧ r1 ≤ 5)
    (hr2 : pyInt rt2 = some r2) (hrt2 : rt2 ≠ "") (htx2 : tx2 ≠ "")
    (hrange2 : 1 ≤ r2 ∧ r2 ≤ 5)
    (hlen : (s.reviews.filter (pairP uid mid)).length ≤ 1) :
    ((submit_review
        (submit_review s uid mid (some rt1) (some tx1) t1).2
        uid mid (some rt2) (some tx2) t2).2.reviews.filter (pairP uid mid)).map
      (fun row => (row.rating, row.text, row.timestamp)) = [(r2, tx2, t2)] := by
  obtain ⟨row1, hrow1, _, _, _, hmov1⟩ :=
    submit_review_valid s uid mid m rt1 tx1 t1 r1 hm hr1 hrt1 htx1 hrange1 hlen
  have hm1 : (submit_review s uid mid (some rt1) (some tx1) t1).2.movies.find?
      (movieIdP mid) = some m := by rw [hmov1]; exact hm
  have hlen1 : ((submit_review s uid mid (some rt1) (some tx1) t1).2.reviews.filter
      (pairP uid mid)).length ≤ 1 := by rw [hrow1]; simp
  obtain ⟨row2, hrow2, hr2v, htx2v, ht2v, _⟩ :=
    submit_review_valid (submit_review s uid mid (some rt1) (some tx1) t1).2
      uid mid m rt2 tx2 t2 r2 hm1 hr2 hrt2 htx2 hrange2 hlen1
  rw [hrow2]
  simp [hr2v, htx2v, ht2v]

/-- Witness for C1: two submissions on the concrete one-movie store, the
first rating four, the second rating two. -/
theorem submit_review_twice_witness :
    storeM.movies.find? (movieIdP 1) = some movie1 ∧
    pyInt "4" = some 4 ∧ pyInt "2" = some 2 ∧
    (storeM.reviews.filter (pairP 1 1)).length ≤ 1 ∧
    ((submit_review (submit_review storeM 1 1 (some "4") (some "ok") 5).2
        1 1 (some "2") (some "meh") 9).2.reviews.filter (pairP 1 1)).map
      (fun row => (row.rating, row.text, row.timestamp)) = [(2, "meh", 9)] :=
  ⟨by decide, by decide, by decide, by decide,
    submit_review_twice storeM 1 1 movie1 "4" "ok" "2" "meh" 5 9 4 2
      (by decide) (by decide) (by decide) (by decide) (by decide)
      (by decide) (by decide) (by decide) (by decide) (by decide)⟩

/-! ### Search pagination -/

/-- Splitting a take at an intermediate point. -/
theorem take_add_split {α : Type} (l : List α) (m n : Nat) :
    l.take (m + n) = l.take m ++ (l.drop m).take n := by
  induction m generalizing l with
  | zero => simp
  | succ k ih =>
    cases l with
    | nil => simp
    | cons x xs =>
      rw [Nat.succ_add]
      simp only [List.take_succ_cons, List.drop_succ_cons]
      rw [ih, List.cons_append]

/-- Concatenating the first k pages of size twelve gives the first
twelve-k elements. -/
theorem flatMap_pages {α : Type} (L : List α) (k : Nat) :
    (List.range k).flatMap (fun i => (L.drop (12 * i)).take 12) = L.take (12 * k) := by
  induction k with
  | zero => simp
  | succ n ih =>
    rw [List.range_succ, List.flatMap_append, ih]
    simp only [List.flatMap_cons, List.flatMap_nil, List.append_nil]
    rw [← take_add_split, Nat.mul_succ]

/-- With no title query and no genre filter, page i plus one of the
search is the i-th size-twelve slice of the year-sorted movie table. -/
theorem api_movies_page_no_filters (s : Store) (i : Nat) :
    api_movies_page s "" "" ((i : Int) + 1)
      = ((sortByYearDesc s.movies).drop (12 * i)).take 12 := by
  have harg : (((i : Int) + 1 - 1) * 12).toNat = 12 * i := by omega
  unfold api_movies_page
  simp only [ne_eq, not_true_eq_false, if_false, reduceIte, harg]

/-- C3: with no query and no genre filter, concatenating the search pages
one through k — page size twelve, offset (page - 1) times twelve, ordered
by release year descending — yields every movie row of the store exactly
once, whenever k pages suffice to cover the table. -/
theorem api_movies_pages_exhaustive (s : Store) (k : Nat)
    (hk : s.movies.length ≤ 12 * k) :
    ((List.range k).flatMap (fun i => api_movies_page s "" "" ((i : Int) + 1))).Perm
      s.movies := by
  have hpages : (List.range k).flatMap (fun i => api_movies_page s "" "" ((i : Int) + 1))
      = (sortByYearDesc s.movies).take (12 * k) := by
    simp only [api_movies_page_no_filters]
    exact flatMap_pages _ k
  rw [hpages]
  have hperm : (sortByYearDesc s.movies).Perm s.movies :=
    List.perm_insertionSort _ s.movies
  rw [List.take_of_length_le (by rw [hperm.length_eq]; exact hk)]
  exact hperm

/-- Witness for C3: the concrete one-movie store is covered by a single
page. -/
theorem api_movies_pages_exhaustive_witness :
    storeM.movies.length ≤ 12 * 1 ∧
    ((List.range 1).flatMap (fun i => api_movies_page storeM "" "" ((i : Int) + 1))).Perm
      storeM.movies :=
  ⟨by decide, api_movies_pages_exhaustive storeM 1 (by decide)⟩

/-! ### Movie detail and average rating -/

/-- A list of integers that are each at least one sums to at least its
length. -/
theorem length_le_sum_of_one_le (l : List Int) (h : ∀ x ∈ l, 1 ≤ x) :
    (l.length : Int) ≤ l.sum := by
  induction l with
  | nil => simp
  | cons x xs ih =>
    have hx : 1 ≤ x := h x (List.mem_cons_self x xs)
    have hxs : (xs.length : Int) ≤ xs.sum :=
      ih (fun y hy => h y (List.mem_cons_of_mem x hy))
    simp only [List.length_cons, List.sum_cons]
    push_cast
    omega

/-- The average of a nonempty review list whose ratings are all at least
one is positive — so Python truthiness never mistakes it for the no-rating
sentinel. -/
theorem ratingAvg_pos (rs : List Review) (hne : rs ≠ [])
    (h : ∀ r ∈ rs, 1 ≤ r.rating) : 0 < ratingAvg rs := by
  unfold ratingAvg
  have hlen : 0 < rs.length := List.length_pos.mpr hne
  have hsum : (rs.length : Int) ≤ (rs.map (fun r => r.rating)).sum := by
    have hmap : ∀ x ∈ rs.map (fun r => r.rating), (1 : Int) ≤ x := by
      intro x hx
      obtain ⟨r, hrmem, hrx⟩ := List.mem_map.mp hx
      exact hrx ▸ h r hrmem
    have hs0 := length_le_sum_of_one_le (rs.map (fun r => r.rating)) hmap
    simpa using hs0
  apply div_pos
  · have hcast : (0 : Int) < (rs.length : Int) := by exact_mod_cast hlen
    have : (0 : Int) < (rs.map (fun r => r.rating)).sum := by omega
    exact_mod_cast this
  · exact_mod_cast hlen

/-- C5: for a stored movie whose reviews all carry ratings of at least
one (the invariant the application maintains), the detail page returns the
movie, the sentinel when it has no reviews, and otherwise the exact
average of its ratings rounded to one decimal place, together with a
permutation (the timestamp-ordered listing) of all its reviews. -/
theorem movie_detail_average (s : Store) (session : Option Nat) (mid : Nat) (m : Movie)
    (hm : s.movies.find? (movieIdP mid) = some m)
    (hr : ∀ r ∈ movieReviews s mid, 1 ≤ r.rating) :
    ∃ d : MovieDetail, movie_detail s session mid = some d
      ∧ d.movie = m
      ∧ (movieReviews s mid = [] → d.avgRating = AvgRating.na)
      ∧ (movieReviews s mid ≠ [] →
          d.avgRating = AvgRating.avg (round1 (ratingAvg (movieReviews s mid))))
      ∧ d.reviews.Perm (movieReviews s mid) := by
  by_cases hne : movieReviews s mid = []
  · unfold movie_detail
    rw [hm]
    rw [hne]
    refine ⟨_, rfl, rfl, fun _ => rfl, fun hc => absurd rfl hc, ?_⟩
    exact List.Perm.refl []
  · have hpos : 0 < ratingAvg (movieReviews s mid) := ratingAvg_pos _ hne hr
    have hEmp : (movieReviews s mid).isEmpty = false := by
      cases hE : (movieReviews s mid).isEmpty
      · rfl
      · exact absurd (List.isEmpty_iff.mp hE) hne
    have hzero : (ratingAvg (movieReviews s mid) = 0) = False := eq_false hpos.ne'
    have hstep : movie_detail s session mid
        = some ⟨m, AvgRating.avg (round1 (ratingAvg (movieReviews s mid))),
            sortByTimestampDesc (movieReviews s mid),
            match session with
            | none => false
            | some uid => onWatchlist s uid mid⟩ := by
      unfold movie_detail
      rw [hm]
      simp only [hEmp, Bool.false_eq_true, if_false, hzero]
    refine ⟨_, hstep, rfl, fun hc => absurd hc hne, fun _ => rfl, ?_⟩
    exact List.perm_insertionSort _ _

/-- Witness for C5 at the concrete store holding one movie with a single
rating-five review: the page shows the average five and exactly that one
review. -/
theorem movie_detail_average_witness :
    storeMR.movies.find? (movieIdP 1) = some movie1 ∧
    (∀ r ∈ movieReviews storeMR 1, 1 ≤ r.rating) ∧
    ∃ d : MovieDetail, movie_detail storeMR none 1 = some d
      ∧ d.avgRating = AvgRating.avg 5 ∧ d.reviews.Perm [review5] := by
  refine ⟨by decide, by decide, ?_⟩
  obtain ⟨d, hd, _, _, havg, hperm⟩ :=
    movie_detail_average storeMR none 1 movie1 (by decide) (by decide)
  refine ⟨d, hd, ?_, ?_⟩
  · have hlist : movieReviews storeMR 1 = [review5] := by decide
    have havg1 : ratingAvg (movieReviews storeMR 1) = 5 := by
      rw [hlist]
      norm_num [ratingAvg, review5]
    have h5 : round1 (ratingAvg (movieReviews storeMR 1)) = 5 := by
      rw [havg1]
      unfold round1 pyRound0
      norm_num [Rat.floor_def']
    rw [havg (by decide), h5]
  · have hlist : movieReviews storeMR 1 = [review5] := by decide
    rw [hlist] at hperm
    exact hperm

/-! ### The review-table invariant -/

/-- Every row of the overwritten review list is either an original row or
the overwrite of an original row. -/
theorem mem_updateFirstReview (l : List Review) (uid mid : Nat) (rating : Int)
    (text : String) (now : Nat) (r : Review)
    (hin : r ∈ updateFirstReview l uid mid rating text now) :
    r ∈ l ∨ ∃ x ∈ l, r = reviewUpd x rating text now := by
  induction l with
  | nil => simp [updateFirstReview] at hin
  | cons y ys ih =>
    by_cases hp : pairP uid mid y
    · simp only [updateFirstReview, hp, if_true] at hin
      rcases List.mem_cons.mp hin with h | h
      · exact Or.inr ⟨y, List.mem_cons_self y ys, h⟩
      · exact Or.inl (List.mem_cons_of_mem y h)
    · simp only [updateFirstReview, hp, Bool.false_eq_true, if_false] at hin
      rcases List.mem_cons.mp hin with h | h
      · exact Or.inl (h ▸ List.mem_cons_self y ys)
      · rcases ih h with h2 | ⟨x, hx, hrx⟩
        · exact Or.inl (List.mem_cons_of_mem y h2)
        · exact Or.inr ⟨x, List.mem_cons_of_mem y hx, hrx⟩

/-- A truthy optional form field holds a nonempty string. -/
theorem fieldTruthy_getD_ne (o : Option String) (h : fieldTruthy o = true) :
    o.getD "" ≠ "" := by
  cases o with
  | none => simp [fieldTruthy] at h
  | some t =>
    simp only [fieldTruthy, Bool.not_eq_true'] at h
    simp only [Option.getD_some]
    intro he
    rw [(String.isEmpty_iff t).mpr he] at h
    simp at h

/-- submit_review preserves the review invariant: every rejected path
leaves the table unchanged, the insert path writes the validated rating
and nonempty text, and the update path overwrites one row with them. -/
theorem submit_review_reviewsOK (s : Store) (uid mid : Nat)
    (rf tf : Option String) (now : Nat) (hs : reviewsOK s) :
    reviewsOK (submit_review s uid mid rf tf now).2 := by
  unfold submit_review
  cases hfm : s.movies.find? (movieIdP mid) with
  | none => exact hs
  | some m =>
    by_cases hft : (!fieldTruthy rf || !fieldTruthy tf) = true
    · simp only [hft, if_true]
      exact hs
    · simp only [hft, Bool.false_eq_true, if_false]
      have htf : fieldTruthy tf = true := by
        cases hv : fieldTruthy tf
        · exact absurd (by rw [hv]; simp) hft
        · rfl
      have htext : tf.getD "" ≠ "" := fieldTruthy_getD_ne tf htf
      cases hp : pyInt (rf.getD "") with
      | none => exact hs
      | some rating =>
        by_cases hrange : 1 ≤ rating ∧ rating ≤ 5
        · simp only [hrange, if_true]
          cases hfind : s.reviews.find? (pairP uid mid) with
          | some x =>
            simp only [hfind, Option.isSome_some, if_true]
            intro r hrmem
            rcases mem_updateFirstReview s.reviews uid mid rating (tf.getD "") now r hrmem
              with hold | ⟨y, _, hupd⟩
            · exact hs r hold
            · subst hupd
              exact ⟨hrange.1, hrange.2, htext⟩
          | none =>
            simp only [hfind, Option.isSome_none, Bool.false_eq_true, if_false]
            intro r hrmem
            rcases List.mem_append.mp hrmem with hold | hnew
            · exact hs r hold
            · have : r = ⟨s.nextReviewId, tf.getD "", rating, now, uid, mid⟩ := by
                simpa using hnew
              subst this
              exact ⟨hrange.1, hrange.2, htext⟩
        · simp only [hrange, if_false]
          exact hs

/-- The watchlist toggle never touches the review table. -/
theorem toggle_watchlist_reviews (s : Store) (uid mid : Nat) :
    (toggle_watchlist s uid mid).2.reviews = s.reviews := by
  unfold toggle_watchlist
  split
  · rfl
  · split
    · rfl
    · rfl

/-- Registration never touches the review table. -/
theorem register_reviews (s : Store) (session : Option Nat) (un em pw : String) :
    (register s session un em pw).2.reviews = s.reviews := by
  unfold register
  split
  · rfl
  · split
    · rfl
    · rfl

/-- Adding a movie never touches the review table. -/
theorem add_movie_reviews (s : Store) (session : Option Nat)
    (t g p y d sy : String) :
    (add_movie s session t g p y d sy).2.reviews = s.reviews := by
  unfold add_movie
  split
  · rfl
  · split
    · rfl
    · split
      · rfl
      · rfl

/-- Editing a movie never touches the review table. -/
theorem edit_movie_reviews (s : Store) (session : Option Nat) (mid : Nat)
    (t g p y d sy : String) :
    (edit_movie s session mid t g p y d sy).2.reviews = s.reviews := by
  unfold edit_movie
  split
  · rfl
  · split
    · rfl
    · split
      · rfl
      · split
        · rfl
        · rfl

/-- Any single handler invocation preserves the review invariant. -/
theorem applyOp_reviewsOK (s : Store) (op : Op) (hs : reviewsOK s) :
    reviewsOK (applyOp s op) := by
  cases op with
  | submitReviewOp session mid rt tx now =>
    cases h : sessionUser s session with
    | none => simpa only [applyOp, h] using hs
    | some uid =>
      simp only [applyOp, h]
      exact submit_review_reviewsOK s uid mid rt tx now hs
  | toggleWatchlistOp session mid =>
    cases h : sessionUser s session with
    | none => simpa only [applyOp, h] using hs
    | some uid =>
      simp only [applyOp, h]
      intro r hrmem
      rw [toggle_watchlist_reviews] at hrmem
      exact hs r hrmem
  | registerOp session un em pw =>
    simp only [applyOp]
    intro r hrmem
    rw [register_reviews] at hrmem
    exact hs r hrmem
  | loginOp identity pw => exact hs
  | logoutOp session => exact hs
  | addMovieOp session t g p y d sy =>
    simp only [applyOp]
    intro r hrmem
    rw [add_movie_reviews] at hrmem
    exact hs r hrmem
  | editMovieOp session mid t g p y d sy =>
    simp only [applyOp]
    intro r hrmem
    rw [edit_movie_reviews] at hrmem
    exact hs r hrmem

/-- C9: starting from any store satisfying the review invariant, every
sequence of handler invocations leaves every stored review with an
integer rating between one and five and nonempty text — submit_review
rejects anything else before writing, and no other handler writes the
review table. -/
theorem reviews_invariant (s : Store) (hs : reviewsOK s) (ops : List Op) :
    reviewsOK (applyOps s ops) := by
  induction ops generalizing s with
  | nil => exact hs
  | cons op rest ih =>
    have h1 : reviewsOK (applyOp s op) := applyOp_reviewsOK s op hs
    simpa only [applyOps, List.foldl_cons] using ih (applyOp s op) h1

/-- Witness for C9: from the seeded concrete store an out-of-range
submission attempt and a registration leave the invariant intact. -/
theorem reviews_invariant_witness :
    reviewsOK storeMR ∧
    reviewsOK (applyOps storeMR
      [Op.submitReviewOp (some 1) 1 (some "9") (some "bad") 0,
       Op.registerOp none "bob" "bob at example" "pw",
       Op.toggleWatchlistOp (some 1) 1]) :=
  ⟨by decide, reviews_invariant storeMR (by decide)
    [Op.submitReviewOp (some 1) 1 (some "9") (some "bad") 0,
     Op.registerOp none "bob" "bob at example" "pw",
     Op.toggleWatchlistOp (some 1) 1]⟩

end WebWizard
